import Mathlib

/-!
Shallow embedding of `blackjack_engine.py`: a single-player blackjack round
simulator.  Cards are integers (2-10 pip values, 11 = Ace).  Python floats
(bets, results) are modelled as rationals: every value the engine produces is
a small dyadic number (products of the base bet with 2 and 3/2), on which
Python float arithmetic is exact.  The mutable shoe (draws `pop` from the end
of the Python list) is modelled by explicit state passing; `draw_card`'s
`RuntimeError` becomes an `Except String` error value.
-/

namespace BlackjackEngine

/-- Config constant `BLACKJACK_PAYOUT = 1.5`. -/
def BLACKJACK_PAYOUT : ℚ := 3 / 2

/-- Config constant `DEALER_HITS_SOFT_17 = False` (S17 table). -/
def DEALER_HITS_SOFT_17 : Bool := false

/-- Config constant `MAX_SPLITS = 3` (source comment: "up to 4 hands total"). -/
def MAX_SPLITS : Nat := 3

/-- `draw_card(shoe)`: Python `shoe.pop()` removes and returns the last
element; an empty shoe raises `RuntimeError`.  Returns the drawn card and the
remaining shoe. -/
def draw_card (shoe : List Int) : Except String (Int × List Int) :=
  match shoe.getLast? with
  | none => .error "Shoe is empty. Recreate or reshuffle before drawing."
  | some c => .ok (c, shoe.dropLast)

/-- The Ace-downgrade loop inside `hand_value`:
`while total > 21 and aces_as_11 > 0: total -= 10; aces_as_11 -= 1`. -/
def adjust_aces : Int → Nat → Int × Nat
  | total, 0 => (total, 0)
  | total, n + 1 =>
    if total > 21 then adjust_aces (total - 10) n else (total, n + 1)

/-- `hand_value(hand) -> (total, is_soft)`. -/
def hand_value (hand : List Int) : Int × Bool :=
  let total := hand.sum
  let aces := hand.count 11
  let (t, aces_as_11) := adjust_aces total aces
  (t, decide (aces_as_11 > 0) && decide (t ≤ 21))

/-- `is_blackjack(hand)`: exactly 2 cards with adjusted total 21. -/
def is_blackjack (hand : List Int) : Bool :=
  if hand.length ≠ 2 then false
  else decide ((hand_value hand).1 = 21)

/-- `can_split(hand)`: exactly 2 cards of equal rank. -/
def can_split (hand : List Int) : Bool :=
  match hand with
  | [a, b] => a == b
  | _ => false

/-- `HandState` dataclass.  The `meta` dict is only ever used for the single
key `"from_split"`, modelled as the Bool field `from_split` (absent key =
`false`). -/
structure HandState where
  cards : List Int
  bet : ℚ := 1
  is_finished : Bool := false
  is_busted : Bool := false
  is_blackjack : Bool := false
  is_split_ace : Bool := false
  result : Option ℚ := none
  from_split : Bool := false
  deriving DecidableEq, Repr

/-- The decision context dict built for the policy at each decision point. -/
structure Ctx where
  player_total : Int
  player_soft : Bool
  can_split : Bool
  can_double : Bool
  hand_index : Nat
  num_hands : Nat
  deriving DecidableEq, Repr

/-- One entry of `state.logs["steps"]`. -/
structure LogStep where
  hand_index : Nat
  cards : List Int
  dealer_up : Int
  action : String
  ctx : Ctx
  deriving DecidableEq, Repr

/-- `RoundState` dataclass; `logs` is the `"steps"` list (empty when logging
is off). -/
structure RoundState where
  shoe : List Int
  player_hands : List HandState
  dealer_cards : List Int
  initial_blackjack : Bool := false
  logs : List LogStep := []
  deriving DecidableEq, Repr

instance {ε α : Type} [DecidableEq ε] [DecidableEq α] :
    DecidableEq (Except ε α) := fun a b =>
  match a, b with
  | .ok x, .ok y =>
    if h : x = y then isTrue (by rw [h]) else isFalse (by simp [h])
  | .error e, .error f =>
    if h : e = f then isTrue (by rw [h]) else isFalse (by simp [h])
  | .ok _, .error _ => isFalse (by simp)
  | .error _, .ok _ => isFalse (by simp)

/-- Drawing from a non-empty shoe removes exactly its last element. -/
theorem draw_card_ok {shoe s' : List Int} {c : Int}
    (h : draw_card shoe = .ok (c, s')) :
    shoe = s' ++ [c] ∧ s'.length + 1 = shoe.length := by
  unfold draw_card at h
  cases hl : shoe.getLast? with
  | none => rw [hl] at h; exact absurd h (by simp)
  | some a =>
    rw [hl] at h
    simp only [Except.ok.injEq, Prod.mk.injEq] at h
    have hne : shoe ≠ [] := by
      intro he; subst he; simp at hl
    obtain ⟨h1, h2⟩ := h
    subst h1 h2
    have hg : a = shoe.getLast hne := by
      have h4 := List.getLast?_eq_getLast shoe hne
      rw [hl] at h4
      exact Option.some_inj.mp h4
    constructor
    · rw [hg]
      exact (List.dropLast_append_getLast hne).symm
    · rw [List.length_dropLast]
      have := List.length_pos.mpr hne
      omega

/-- The dealer's `while True` loop.  The loop terminates only because the
shoe is finite (each iteration draws one card), so it is expressed as
structural recursion on a counter that the entry point `play_dealer` fixes to
the shoe's length; the counter-exhausted branch after a successful draw is
unreachable from the entry point (a successful draw means the shoe was
non-empty, hence the counter was positive). -/
def play_dealer_go (h17 : Bool) :
    Nat → List Int → List Int → Except String (List Int × List Int)
  | fuel, shoe, dealer_cards =>
    let v := hand_value dealer_cards
    if v.1 > 21 then .ok (shoe, dealer_cards)
    else if (if h17 then decide (v.1 > 17) || (decide (v.1 = 17) && !v.2)
             else decide (v.1 ≥ 17)) then
      .ok (shoe, dealer_cards)
    else
      match draw_card shoe with
      | .error e => .error e
      | .ok (c, shoe') =>
        match fuel with
        | 0 => .error "Shoe is empty. Recreate or reshuffle before drawing."
        | fuel' + 1 => play_dealer_go h17 fuel' shoe' (dealer_cards ++ [c])

/-- `play_dealer(shoe, dealer_cards)`: draw until the table rule says stop
(S17 when `h17 = false`, H17 when `h17 = true`; the source fixes
`h17 = DEALER_HITS_SOFT_17`).  Returns the remaining shoe and the dealer's
final cards. -/
def play_dealer (h17 : Bool) (shoe : List Int) (dealer_cards : List Int) :
    Except String (List Int × List Int) :=
  play_dealer_go h17 shoe.length shoe dealer_cards

/-- `apply_action_hit(shoe, hand)`: draw one card; mark busted+finished when
the new total exceeds 21. -/
def apply_action_hit (shoe : List Int) (hand : HandState) :
    Except String (List Int × HandState) :=
  match draw_card shoe with
  | .error e => .error e
  | .ok (c, shoe') =>
    let cards := hand.cards ++ [c]
    if (hand_value cards).1 > 21 then
      .ok (shoe', { hand with cards := cards, is_busted := true, is_finished := true })
    else
      .ok (shoe', { hand with cards := cards })

/-- `apply_action_stand(hand)`. -/
def apply_action_stand (hand : HandState) : HandState :=
  { hand with is_finished := true }

/-- `apply_action_double(shoe, hand)`: invalid (card count ≠ 2) degrades to a
hit; otherwise double the bet, draw one card, finish. -/
def apply_action_double (shoe : List Int) (hand : HandState) :
    Except String (List Int × HandState) :=
  if hand.cards.length ≠ 2 then
    apply_action_hit shoe hand
  else
    match draw_card shoe with
    | .error e => .error e
    | .ok (c, shoe') =>
      let cards := hand.cards ++ [c]
      .ok (shoe', { hand with
        bet := hand.bet * 2,
        cards := cards,
        is_busted := if (hand_value cards).1 > 21 then true else hand.is_busted,
        is_finished := true })

/-- `apply_action_split(shoe, round_state, hand_index)`: no-op unless the
hand is a pair and the count of hands carrying the `from_split` marker is
below `MAX_SPLITS`; otherwise redeal the acting hand to `[rank, draw]`, insert
a new hand `[rank, draw]` to its right, and finish both when the rank is an
Ace.  Modelled on (shoe, hand list); the hand index is always in range when
called from `play_round` (an out-of-range index would raise in Python). -/
def apply_action_split (shoe : List Int) (hands : List HandState)
    (hand_index : Nat) : Except String (List Int × List HandState) :=
  match hands.get? hand_index with
  | none => .ok (shoe, hands)
  | some hand =>
    if !can_split hand.cards then .ok (shoe, hands)
    else if (hands.filter (fun h => h.from_split)).length ≥ MAX_SPLITS then
      .ok (shoe, hands)
    else
      let card := hand.cards.headI
      match draw_card shoe with
      | .error e => .error e
      | .ok (c1, shoe1) =>
        match draw_card shoe1 with
        | .error e => .error e
        | .ok (c2, shoe2) =>
          let hand1 := { hand with
            cards := [card, c1]
            is_blackjack := is_blackjack [card, c1]
            from_split := true }
          let new_hand : HandState :=
            { cards := [card, c2], bet := hand.bet, is_finished := false,
              is_busted := false, is_blackjack := is_blackjack [card, c2],
              is_split_ace := false, result := none, from_split := true }
          let pair :=
            if card = 11 then
              ({ hand1 with is_split_ace := true, is_finished := true },
               { new_hand with is_split_ace := true, is_finished := true })
            else (hand1, new_hand)
          .ok (shoe2,
            (hands.set hand_index pair.1).insertIdx (hand_index + 1) pair.2)

/-- `settle_hand_vs_dealer(hand, dealer_cards)`: returns the settled hand
and the result that the Python function returns.  An already-set `result` is
returned unchanged. -/
def settle_hand_vs_dealer (hand : HandState) (dealer_cards : List Int) :
    HandState × ℚ :=
  match hand.result with
  | some r => (hand, r)
  | none =>
    if hand.is_busted then
      ({ hand with result := some (-hand.bet) }, -hand.bet)
    else
      let player_total := (hand_value hand.cards).1
      let dealer_total := (hand_value dealer_cards).1
      if dealer_total > 21 then
        ({ hand with result := some hand.bet }, hand.bet)
      else if hand.is_blackjack ∧ ¬(dealer_cards.length = 2 ∧ dealer_total = 21) then
        ({ hand with result := some (hand.bet * BLACKJACK_PAYOUT) },
         hand.bet * BLACKJACK_PAYOUT)
      else if dealer_total > player_total then
        ({ hand with result := some (-hand.bet) }, -hand.bet)
      else if dealer_total < player_total then
        ({ hand with result := some hand.bet }, hand.bet)
      else
        ({ hand with result := some 0 }, 0)

/-- Python `str.upper()` on one character (ASCII range, which covers the
action codes the engine compares against). -/
def py_char_upper (c : Char) : Char :=
  if 'a' ≤ c ∧ c ≤ 'z' then Char.ofNat (c.toNat - 32) else c

/-- Python `str.upper()` as used on the policy's returned action code. -/
def py_upper (s : String) : String := String.mk (s.data.map py_char_upper)

/-- The policy callback: `(player_cards, dealer_upcard, context) -> action`. -/
def PolicyFunc : Type := List Int → Int → Ctx → String

/-- Result of the player action loop. -/
inductive LoopResult where
  | ok (shoe : List Int) (hands : List HandState) (logs : List LogStep)
  | shoeEmpty (msg : String)
  | outOfFuel
  deriving DecidableEq, Repr

/-- The player phase of `play_round`: the outer `while hand_index <
len(player_hands)` loop with its inner `while not hand.is_finished` loop,
flattened into one tail recursion (each Python loop iteration is one
recursive call; `fuel` bounds the iteration count, `.outOfFuel` marks the
bound being hit, which no terminating Python run reaches).  A `break` of the
inner loop falls through to the outer loop's `hand_index += 1` — in
particular the split branch advances the index, and a finished hand observed
at the top of the inner loop re-enters at the same index (re-checking the
outer loop condition first, exactly as the Python control flow does). -/
def action_loop (policy : PolicyFunc) (dealer_up : Int) (log : Bool) :
    Nat → List Int → List HandState → Nat → List LogStep → LoopResult
  | 0, _, _, _, _ => .outOfFuel
  | fuel + 1, shoe, hands, hand_index, logs =>
    match hands.get? hand_index with
    | none => .ok shoe hands logs
    | some hand =>
      if hand.is_finished then
        action_loop policy dealer_up log fuel shoe hands (hand_index + 1) logs
      else
        let v := hand_value hand.cards
        if v.1 > 21 then
          action_loop policy dealer_up log fuel shoe
            (hands.set hand_index { hand with is_busted := true, is_finished := true })
            (hand_index + 1) logs
        else
          let ctx : Ctx :=
            { player_total := v.1, player_soft := v.2,
              can_split := can_split hand.cards,
              can_double := decide (hand.cards.length = 2),
              hand_index := hand_index, num_hands := hands.length }
          let action := py_upper (policy hand.cards dealer_up ctx)
          let logs' :=
            if log then logs ++ [⟨hand_index, hand.cards, dealer_up, action, ctx⟩]
            else logs
          if action = "H" then
            if hand.is_split_ace then
              action_loop policy dealer_up log fuel shoe
                (hands.set hand_index { hand with is_finished := true }) hand_index logs'
            else
              match apply_action_hit shoe hand with
              | .error e => .shoeEmpty e
              | .ok (shoe', hand') =>
                action_loop policy dealer_up log fuel shoe'
                  (hands.set hand_index hand') hand_index logs'
          else if action = "S" then
            action_loop policy dealer_up log fuel shoe
              (hands.set hand_index (apply_action_stand hand)) hand_index logs'
          else if action = "D" then
            if hand.cards.length = 2 then
              match apply_action_double shoe hand with
              | .error e => .shoeEmpty e
              | .ok (shoe', hand') =>
                action_loop policy dealer_up log fuel shoe'
                  (hands.set hand_index hand') hand_index logs'
            else
              match apply_action_hit shoe hand with
              | .error e => .shoeEmpty e
              | .ok (shoe', hand') =>
                action_loop policy dealer_up log fuel shoe'
                  (hands.set hand_index hand') hand_index logs'
          else if action = "P" then
            if can_split hand.cards then
              match apply_action_split shoe hands hand_index with
              | .error e => .shoeEmpty e
              | .ok (shoe', hands') =>
                action_loop policy dealer_up log fuel shoe' hands'
                  (hand_index + 1) logs'
            else
              match apply_action_hit shoe hand with
              | .error e => .shoeEmpty e
              | .ok (shoe', hand') =>
                action_loop policy dealer_up log fuel shoe'
                  (hands.set hand_index hand') hand_index logs'
          else if action = "R" then
            action_loop policy dealer_up log fuel shoe
              (hands.set hand_index (apply_action_stand hand)) hand_index logs'
          else
            action_loop policy dealer_up log fuel shoe
              (hands.set hand_index (apply_action_stand hand)) hand_index logs'

/-- Result of `play_round`. -/
inductive RoundResult where
  | ok (state : RoundState)
  | shoeEmpty (msg : String)
  | outOfFuel
  deriving DecidableEq, Repr

/-- `play_round(shoe, policy, base_bet, log)`: one full round — initial
deal, immediate natural settlement, player action loop, dealer phase,
settlement of every hand. -/
def play_round (fuel : Nat) (shoe : List Int) (policy : PolicyFunc)
    (base_bet : ℚ) (log : Bool) : RoundResult :=
  match draw_card shoe with
  | .error e => .shoeEmpty e
  | .ok (p1, shoe1) =>
  match draw_card shoe1 with
  | .error e => .shoeEmpty e
  | .ok (p2, shoe2) =>
  match draw_card shoe2 with
  | .error e => .shoeEmpty e
  | .ok (d1, shoe3) =>
  match draw_card shoe3 with
  | .error e => .shoeEmpty e
  | .ok (d2, shoe4) =>
    let player_cards := [p1, p2]
    let dealer_cards := [d1, d2]
    let player_hand : HandState :=
      { cards := player_cards, bet := base_bet,
        is_blackjack := is_blackjack player_cards }
    let dealer_up := d1
    let dealer_has_bj := is_blackjack dealer_cards
    if player_hand.is_blackjack || dealer_has_bj then
      let result :=
        if player_hand.is_blackjack && !dealer_has_bj then base_bet * BLACKJACK_PAYOUT
        else if dealer_has_bj && !player_hand.is_blackjack then -base_bet
        else 0
      .ok { shoe := shoe4,
            player_hands := [{ player_hand with result := some result }],
            dealer_cards := dealer_cards,
            initial_blackjack := player_hand.is_blackjack,
            logs := [] }
    else
      match action_loop policy dealer_up log fuel shoe4 [player_hand] 0 [] with
      | .outOfFuel => .outOfFuel
      | .shoeEmpty e => .shoeEmpty e
      | .ok shoe5 hands logs =>
        match (if hands.any (fun h => !h.is_busted) then
                 play_dealer DEALER_HITS_SOFT_17 shoe5 dealer_cards
               else .ok (shoe5, dealer_cards)) with
        | .error e => .shoeEmpty e
        | .ok (shoe6, dealer_final) =>
          .ok { shoe := shoe6,
                player_hands := hands.map (fun h => (settle_hand_vs_dealer h dealer_final).1),
                dealer_cards := dealer_final,
                initial_blackjack := player_hand.is_blackjack,
                logs := logs }

/-- The acting hand after a successful split: redealt to the shared pair
rank plus the first drawn card, with the Ace special case applied (mirrors
the mutations `apply_action_split` performs on `round_state.player_hands[hand_index]`). -/
def split_hand1 (hand : HandState) (c1 : Int) : HandState :=
  let card := hand.cards.headI
  let base := { hand with
    cards := [card, c1]
    is_blackjack := is_blackjack [card, c1]
    from_split := true }
  if card = 11 then { base with is_split_ace := true, is_finished := true } else base

/-- The newly created hand after a successful split (mirrors the `HandState`
that `apply_action_split` inserts at `hand_index + 1`). -/
def split_hand2 (hand : HandState) (c2 : Int) : HandState :=
  let card := hand.cards.headI
  let base : HandState :=
    { cards := [card, c2], bet := hand.bet, is_finished := false,
      is_busted := false, is_blackjack := is_blackjack [card, c2],
      is_split_ace := false, result := none, from_split := true }
  if card = 11 then { base with is_split_ace := true, is_finished := true } else base

/-- A concrete policy for exercising the engine: split whenever the hand is
a pair, otherwise stand. -/
def split_else_stand_policy : PolicyFunc :=
  fun cards _ _ => if can_split cards then "P" else "S"

/-- The per-hand bet invariant: a hand's bet is the base bet, or it has been
doubled exactly once — and a doubled hand is always finished. -/
def BetOk (b : ℚ) (h : HandState) : Prop :=
  h.bet = b ∨ (h.bet = 2 * b ∧ h.is_finished = true)

theorem draw_card_concat (xs : List Int) (c : Int) :
    draw_card (xs ++ [c]) = .ok (c, xs) := by
  unfold draw_card
  rw [List.getLast?_concat, List.dropLast_concat]

/-- Full description of the Ace-downgrade loop: it subtracts 10 exactly `k`
times, where each subtraction happened only while the running total exceeded
21, and it only stops early (before exhausting the Aces) once the total is
at most 21. -/
theorem adjust_aces_spec (n : Nat) (total : Int) :
    ∃ k ≤ n, adjust_aces total n = (total - 10 * (k : ℤ), n - k) ∧
      (∀ j < k, total - 10 * (j : ℤ) > 21) ∧
      (total - 10 * (k : ℤ) ≤ 21 ∨ k = n) := by
  induction n generalizing total with
  | zero =>
    refine ⟨0, le_refl 0, ?_, ?_, Or.inr rfl⟩
    · simp [adjust_aces]
    · intro j hj; omega
  | succ n ih =>
    by_cases h : total > 21
    · obtain ⟨k, hk, heq, hmin, hstop⟩ := ih (total - 10)
      refine ⟨k + 1, by omega, ?_, ?_, ?_⟩
      · show adjust_aces total (n + 1) = _
        rw [adjust_aces, if_pos h, heq]
        have h10 : total - 10 - 10 * (k : ℤ) = total - 10 * ((k : ℤ) + 1) := by ring
        have hsub : n - k = n + 1 - (k + 1) := by omega
        rw [h10, hsub]
        push_cast
        rfl
      · intro j hj
        cases j with
        | zero => simpa using h
        | succ j' =>
          have := hmin j' (by omega)
          push_cast
          push_cast at this
          omega
      · rcases hstop with h1 | h2
        · left; push_cast; omega
        · right; omega
    · refine ⟨0, Nat.zero_le _, ?_, ?_, Or.inl (by omega)⟩
      · rw [adjust_aces, if_neg h]
        simp
      · intro j hj; omega

/-- C5: for every list of cards, `hand_value` returns the rank sum adjusted
by subtracting 10 for each Ace counted as 11 while the total exceeds 21 and
such an Ace remains (the subtraction count `k` below), and the softness flag
is true iff at least one Ace remains counted as 11 (`k < number of Aces`)
and the total is at most 21; in particular `hand_value [11,6] = (17, soft)`
and `hand_value [11,6,10] = (17, hard)`. -/
theorem C5_hand_value_ace_adjustment :
    hand_value [11, 6] = (17, true) ∧
    hand_value [11, 6, 10] = (17, false) ∧
    ∀ hand : List Int, ∃ k ≤ hand.count 11,
      (hand_value hand).1 = hand.sum - 10 * (k : ℤ) ∧
      (∀ j < k, hand.sum - 10 * (j : ℤ) > 21) ∧
      ((hand_value hand).1 > 21 → k = hand.count 11) ∧
      ((hand_value hand).2 = true ↔ k < hand.count 11 ∧ (hand_value hand).1 ≤ 21) := by
  refine ⟨by decide, by decide, ?_⟩
  intro hand
  obtain ⟨k, hk, heq, hmin, hstop⟩ := adjust_aces_spec (hand.count 11) hand.sum
  have hv : hand_value hand =
      (hand.sum - 10 * (k : ℤ),
        decide (hand.count 11 - k > 0) && decide (hand.sum - 10 * (k : ℤ) ≤ 21)) := by
    simp only [hand_value, heq]
  refine ⟨k, hk, ?_, hmin, ?_, ?_⟩
  · rw [hv]
  · rw [hv]
    intro hgt
    rcases hstop with h1 | h2
    · exact absurd hgt (by simpa using h1)
    · exact h2
  · rw [hv]
    simp only [Bool.and_eq_true, decide_eq_true_eq]
    omega

/-- Witness for C5, instantiated at the claim's own example hand. -/
theorem C5_hand_value_ace_adjustment_witness :
    ∃ k ≤ ([11, 6, 10] : List Int).count 11,
      (hand_value [11, 6, 10]).1 = ([11, 6, 10] : List Int).sum - 10 * (k : ℤ) ∧
      (∀ j < k, ([11, 6, 10] : List Int).sum - 10 * (j : ℤ) > 21) ∧
      ((hand_value [11, 6, 10]).1 > 21 → k = ([11, 6, 10] : List Int).count 11) ∧
      ((hand_value [11, 6, 10]).2 = true ↔
        k < ([11, 6, 10] : List Int).count 11 ∧ (hand_value [11, 6, 10]).1 ≤ 21) :=
  C5_hand_value_ace_adjustment.2.2 [11, 6, 10]

/-- C8: `draw_card` on a non-empty shoe removes exactly the last card of the
sequence and returns it (the length drops by exactly one), and on an empty
shoe it fails with the distinct exhaustion error, never recovering. -/
theorem C8_draw_card_spec :
    (∀ (xs : List Int) (c : Int), draw_card (xs ++ [c]) = .ok (c, xs)) ∧
    (∀ (shoe s' : List Int) (c : Int), draw_card shoe = .ok (c, s') →
      shoe = s' ++ [c] ∧ s'.length + 1 = shoe.length) ∧
    draw_card [] = .error "Shoe is empty. Recreate or reshuffle before drawing." := by
  refine ⟨draw_card_concat, ?_, by decide⟩
  intro shoe s' c h
  exact draw_card_ok h

/-- Witness for C8 at the concrete shoe `[5, 7]`. -/
theorem C8_draw_card_spec_witness :
    ([5, 7] : List Int) = [5] ++ [7] ∧ ([5] : List Int).length + 1 = ([5, 7] : List Int).length :=
  C8_draw_card_spec.2.1 [5, 7] [5] 7 (by decide)

/-- C4: `settle_hand_vs_dealer` is write-once (an already-set result is
returned unchanged, nothing recomputed) and otherwise settles by exactly the
cascade: busted → −bet; else dealer total > 21 → +bet; else natural flag set
and dealer not a two-card 21 → +1.5× bet; else higher total wins ±bet and
equal totals push at 0 (the settled hand records exactly that result). -/
theorem C4_settle_write_once_and_rule :
    (∀ (hand : HandState) (dealer : List Int) (r : ℚ),
      hand.result = some r → settle_hand_vs_dealer hand dealer = (hand, r)) ∧
    (∀ (hand : HandState) (dealer : List Int),
      hand.result = none →
      (settle_hand_vs_dealer hand dealer).2 =
        (if hand.is_busted then -hand.bet
         else if (hand_value dealer).1 > 21 then hand.bet
         else if hand.is_blackjack ∧ ¬(dealer.length = 2 ∧ (hand_value dealer).1 = 21)
           then hand.bet * (3 / 2)
         else if (hand_value dealer).1 > (hand_value hand.cards).1 then -hand.bet
         else if (hand_value dealer).1 < (hand_value hand.cards).1 then hand.bet
         else 0) ∧
      (settle_hand_vs_dealer hand dealer).1 =
        { hand with result := some ((settle_hand_vs_dealer hand dealer).2) }) := by
  constructor
  · intro hand dealer r h
    unfold settle_hand_vs_dealer
    rw [h]
  · intro hand dealer h
    unfold settle_hand_vs_dealer
    rw [h]
    simp only [BLACKJACK_PAYOUT]
    split_ifs <;> simp_all

/-- Witness for C4: an already-settled hand is returned unchanged, and a
fresh 20-vs-19 hand wins its bet. -/
theorem C4_settle_write_once_and_rule_witness :
    settle_hand_vs_dealer
        { cards := [10, 5], result := some 7 } [10, 9] = ({ cards := [10, 5], result := some 7 }, 7) ∧
    (settle_hand_vs_dealer { cards := [10, 10], result := none } [10, 9]).2 =
      (if ({ cards := [10, 10], result := none } : HandState).is_busted
        then -({ cards := [10, 10], result := none } : HandState).bet
       else if (hand_value [10, 9]).1 > 21 then ({ cards := [10, 10], result := none } : HandState).bet
       else if ({ cards := [10, 10], result := none } : HandState).is_blackjack ∧
           ¬(([10, 9] : List Int).length = 2 ∧ (hand_value [10, 9]).1 = 21)
         then ({ cards := [10, 10], result := none } : HandState).bet * (3 / 2)
       else if (hand_value [10, 9]).1 > (hand_value [10, 10]).1
         then -({ cards := [10, 10], result := none } : HandState).bet
       else if (hand_value [10, 9]).1 < (hand_value [10, 10]).1
         then ({ cards := [10, 10], result := none } : HandState).bet
       else 0) :=
  ⟨C4_settle_write_once_and_rule.1 { cards := [10, 5], result := some 7 } [10, 9] 7 rfl,
   (C4_settle_write_once_and_rule.2 { cards := [10, 10], result := none } [10, 9] rfl).1⟩

/-- A successful split: a pair with the `from_split` cap not reached draws
the two top cards of the shoe and produces the redealt acting hand and the
inserted new hand. -/
theorem apply_action_split_ok (rest : List Int) (c1 c2 : Int)
    (hands : List HandState) (i : Nat) (hand : HandState)
    (hget : hands.get? i = some hand)
    (hpair : can_split hand.cards = true)
    (hcap : (hands.filter (fun h => h.from_split)).length < MAX_SPLITS) :
    apply_action_split (rest ++ [c2, c1]) hands i =
      .ok (rest, (hands.set i (split_hand1 hand c1)).insertIdx (i + 1) (split_hand2 hand c2)) := by
  unfold apply_action_split
  rw [hget]
  simp only [hpair, Bool.not_true, Bool.false_eq_true, if_false]
  rw [if_neg (by omega)]
  have hshape : rest ++ [c2, c1] = (rest ++ [c2]) ++ [c1] := by simp
  rw [hshape]
  simp only [draw_card_concat]
  unfold split_hand1 split_hand2
  by_cases hace : hand.cards.headI = 11 <;> simp [hace]

/-- C6: splitting an Ace pair `[11, 11]` (with the cap not reached and two
cards available) produces exactly two hands — the hand list grows by one and
the hands at the acting index and its right neighbour each hold exactly two
cards (the Ace plus one drawn card), are marked split-ace, and are
immediately finished; and the action loop passes over a finished hand
without drawing a card, consulting the policy, or changing any hand. -/
theorem C6_split_aces_two_finished_hands :
    (∀ (rest : List Int) (c1 c2 : Int) (hands : List HandState) (i : Nat) (hand : HandState),
      hands.get? i = some hand →
      hand.cards = [11, 11] →
      (hands.filter (fun h => h.from_split)).length < MAX_SPLITS →
      ∃ h1 h2,
        apply_action_split (rest ++ [c2, c1]) hands i =
          .ok (rest, (hands.set i h1).insertIdx (i + 1) h2) ∧
        ((hands.set i h1).insertIdx (i + 1) h2).length = hands.length + 1 ∧
        h1.cards = [11, c1] ∧ h2.cards = [11, c2] ∧
        h1.cards.length = 2 ∧ h2.cards.length = 2 ∧
        h1.is_split_ace = true ∧ h2.is_split_ace = true ∧
        h1.is_finished = true ∧ h2.is_finished = true) ∧
    (∀ (policy : PolicyFunc) (up : Int) (log : Bool) (fuel : Nat) (shoe : List Int)
       (hands : List HandState) (i : Nat) (logs : List LogStep) (hand : HandState),
      hands.get? i = some hand → hand.is_finished = true →
      action_loop policy up log (fuel + 1) shoe hands i logs =
        action_loop policy up log fuel shoe hands (i + 1) logs) := by
  constructor
  · intro rest c1 c2 hands i hand hget hcards hcap
    have hpair : can_split hand.cards = true := by rw [hcards]; decide
    refine ⟨split_hand1 hand c1, split_hand2 hand c2,
      apply_action_split_ok rest c1 c2 hands i hand hget hpair hcap, ?_, ?_⟩
    · obtain ⟨hlt, -⟩ := List.get?_eq_some.mp hget
      rw [List.length_insertIdx _ _ (by simp; omega)]
      simp
    · have hhead : hand.cards.headI = 11 := by rw [hcards]; rfl
      unfold split_hand1 split_hand2
      simp [hhead]
  · intro policy up log fuel shoe hands i logs hand hget hfin
    simp only [action_loop]
    rw [hget]
    simp [hfin]

/-- Witness for C6: splitting `[11, 11]` from the two-card shoe `[5, 9]`,
and skipping a finished hand in the action loop. -/
theorem C6_split_aces_two_finished_hands_witness :
    (∃ h1 h2,
      apply_action_split ([] ++ [5, 9]) [{ cards := [11, 11] }] 0 =
        .ok ([], (([{ cards := [11, 11] }] : List HandState).set 0 h1).insertIdx 1 h2) ∧
      ((([{ cards := [11, 11] }] : List HandState).set 0 h1).insertIdx 1 h2).length =
        ([{ cards := [11, 11] }] : List HandState).length + 1 ∧
      h1.cards = [11, 9] ∧ h2.cards = [11, 5] ∧
      h1.cards.length = 2 ∧ h2.cards.length = 2 ∧
      h1.is_split_ace = true ∧ h2.is_split_ace = true ∧
      h1.is_finished = true ∧ h2.is_finished = true) ∧
    action_loop split_else_stand_policy 10 false 1 [4]
        [{ cards := [9, 9], is_finished := true }] 0 [] =
      action_loop split_else_stand_policy 10 false 0 [4]
        [{ cards := [9, 9], is_finished := true }] 1 [] :=
  ⟨C6_split_aces_two_finished_hands.1 [] 9 5 [{ cards := [11, 11] }] 0
      { cards := [11, 11] } (by decide) rfl (by decide),
   C6_split_aces_two_finished_hands.2 split_else_stand_policy 10 false 0 [4]
      [{ cards := [9, 9], is_finished := true }] 0 []
      { cards := [9, 9], is_finished := true } (by decide) rfl⟩

/-- One unfolding of the dealer loop body. -/
theorem play_dealer_go_eq (h17 : Bool) (fuel : Nat) (shoe d : List Int) :
    play_dealer_go h17 fuel shoe d =
      (if (hand_value d).1 > 21 then .ok (shoe, d)
       else if (if h17 then decide ((hand_value d).1 > 17) ||
                  (decide ((hand_value d).1 = 17) && !(hand_value d).2)
                else decide ((hand_value d).1 ≥ 17)) then .ok (shoe, d)
       else
         match draw_card shoe with
         | .error e => .error e
         | .ok (c, shoe') =>
           match fuel with
           | 0 => .error "Shoe is empty. Recreate or reshuffle before drawing."
           | fuel' + 1 => play_dealer_go h17 fuel' shoe' (d ++ [c])) := by
  rw [play_dealer_go]

/-- The dealer's final cards always satisfy the configured stand rule. -/
theorem play_dealer_go_stop (h17 : Bool) (fuel : Nat) :
    ∀ (shoe d s' d' : List Int), play_dealer_go h17 fuel shoe d = .ok (s', d') →
      ((hand_value d').1 > 21 ∨
        (if h17 = true then
          ((hand_value d').1 > 17 ∨ ((hand_value d').1 = 17 ∧ (hand_value d').2 = false))
         else (hand_value d').1 ≥ 17)) := by
  induction fuel with
  | zero =>
    intro shoe d s' d' h
    rw [play_dealer_go_eq] at h
    by_cases h1 : (hand_value d).1 > 21
    · rw [if_pos h1] at h
      obtain ⟨rfl, rfl⟩ : shoe = s' ∧ d = d' := by simpa using h
      exact Or.inl h1
    · rw [if_neg h1] at h
      by_cases h2 : (if h17 then decide ((hand_value d).1 > 17) ||
            (decide ((hand_value d).1 = 17) && !(hand_value d).2)
          else decide ((hand_value d).1 ≥ 17)) = true
      · rw [if_pos h2] at h
        obtain ⟨rfl, rfl⟩ : shoe = s' ∧ d = d' := by simpa using h
        right
        cases h17 <;> simp_all
      · rw [if_neg h2] at h
        cases hdc : draw_card shoe with
        | error e => rw [hdc] at h; simp at h
        | ok p => rw [hdc] at h; obtain ⟨c, shoe'⟩ := p; simp at h
  | succ n ih =>
    intro shoe d s' d' h
    rw [play_dealer_go_eq] at h
    by_cases h1 : (hand_value d).1 > 21
    · rw [if_pos h1] at h
      obtain ⟨rfl, rfl⟩ : shoe = s' ∧ d = d' := by simpa using h
      exact Or.inl h1
    · rw [if_neg h1] at h
      by_cases h2 : (if h17 then decide ((hand_value d).1 > 17) ||
            (decide ((hand_value d).1 = 17) && !(hand_value d).2)
          else decide ((hand_value d).1 ≥ 17)) = true
      · rw [if_pos h2] at h
        obtain ⟨rfl, rfl⟩ : shoe = s' ∧ d = d' := by simpa using h
        right
        cases h17 <;> simp_all
      · rw [if_neg h2] at h
        cases hdc : draw_card shoe with
        | error e => rw [hdc] at h; simp at h
        | ok p =>
          rw [hdc] at h
          obtain ⟨c, shoe'⟩ := p
          exact ih shoe' (d ++ [c]) s' d' h

/-- C7: under S17 (`h17 = false`) the dealer stands on every total of at
least 17 regardless of softness and draws exactly one card from the top of
the shoe while the total is below 17; under H17 (`h17 = true`) it stands on
busts, totals above 17 and hard 17, and draws on totals below 17 or soft 17;
and in both configurations the loop only ever returns with the stand rule
satisfied, which on a bust (total over 21) means it stopped immediately. -/
theorem C7_play_dealer_rule :
    (∀ (shoe d : List Int), (hand_value d).1 ≥ 17 →
      play_dealer false shoe d = .ok (shoe, d)) ∧
    (∀ (rest d : List Int) (c : Int), (hand_value d).1 < 17 →
      play_dealer false (rest ++ [c]) d = play_dealer false rest (d ++ [c])) ∧
    (∀ (shoe d : List Int),
      ((hand_value d).1 > 21 ∨ (hand_value d).1 > 17 ∨
        ((hand_value d).1 = 17 ∧ (hand_value d).2 = false)) →
      play_dealer true shoe d = .ok (shoe, d)) ∧
    (∀ (rest d : List Int) (c : Int),
      (hand_value d).1 ≤ 21 →
      ((hand_value d).1 < 17 ∨ ((hand_value d).1 = 17 ∧ (hand_value d).2 = true)) →
      play_dealer true (rest ++ [c]) d = play_dealer true rest (d ++ [c])) ∧
    (∀ (h17 : Bool) (shoe d s' d' : List Int),
      play_dealer h17 shoe d = .ok (s', d') →
      ((hand_value d').1 > 21 ∨
        (if h17 = true then
          ((hand_value d').1 > 17 ∨ ((hand_value d').1 = 17 ∧ (hand_value d').2 = false))
         else (hand_value d').1 ≥ 17))) := by
  refine ⟨?_, ?_, ?_, ?_, ?_⟩
  · intro shoe d h
    rw [play_dealer, play_dealer_go_eq]
    by_cases h1 : (hand_value d).1 > 21
    · rw [if_pos h1]
    · rw [if_neg h1, if_pos (by simpa using h)]
  · intro rest d c h
    simp only [play_dealer]
    rw [play_dealer_go_eq]
    rw [if_neg (by omega), if_neg (by simp; omega)]
    rw [draw_card_concat]
    simp only [List.length_append, List.length_cons, List.length_nil, Nat.zero_add]
  · intro shoe d h
    rw [play_dealer, play_dealer_go_eq]
    by_cases h1 : (hand_value d).1 > 21
    · rw [if_pos h1]
    · have hb : (decide ((hand_value d).1 > 17) ||
          (decide ((hand_value d).1 = 17) && !(hand_value d).2)) = true := by
        simp only [Bool.or_eq_true, Bool.and_eq_true, decide_eq_true_eq, Bool.not_eq_true']
        rcases h with h | h | h
        · omega
        · exact Or.inl h
        · exact Or.inr ⟨h.1, h.2⟩
      rw [if_neg h1, if_pos (by rw [if_pos rfl]; exact hb)]
  · intro rest d c h21 h
    have hb : ¬((decide ((hand_value d).1 > 17) ||
        (decide ((hand_value d).1 = 17) && !(hand_value d).2)) = true) := by
      simp only [Bool.or_eq_true, Bool.and_eq_true, decide_eq_true_eq, Bool.not_eq_true']
      rcases h with h | h
      · push_neg
        constructor
        · omega
        · intro h17eq; rw [h17eq] at h; omega
      · push_neg
        constructor
        · omega
        · intro _; rw [h.2]; simp
    simp only [play_dealer]
    rw [play_dealer_go_eq]
    rw [if_neg (by omega), if_neg (by rw [if_pos rfl]; exact hb)]
    rw [draw_card_concat]
    simp only [List.length_append, List.length_cons, List.length_nil, Nat.zero_add]
  · intro h17 shoe d s' d' h
    exact play_dealer_go_stop h17 shoe.length shoe d s' d' h

/-- Witness for C7: a dealer 19 stands (S17 and H17), a dealer 16 draws,
soft 17 draws under H17, and a finished S17 run satisfies the stand rule. -/
theorem C7_play_dealer_rule_witness :
    play_dealer false [4] [10, 9] = .ok ([4], [10, 9]) ∧
    play_dealer false ([5] ++ [4]) [7, 9] = play_dealer false [5] ([7, 9] ++ [4]) ∧
    play_dealer true [4] [10, 9] = .ok ([4], [10, 9]) ∧
    play_dealer true ([] ++ [4]) [11, 6] = play_dealer true [] ([11, 6] ++ [4]) ∧
    ((hand_value [7, 9, 5]).1 > 21 ∨
      (if false = true then
        ((hand_value [7, 9, 5]).1 > 17 ∨
          ((hand_value [7, 9, 5]).1 = 17 ∧ (hand_value [7, 9, 5]).2 = false))
       else (hand_value [7, 9, 5]).1 ≥ 17)) :=
  ⟨C7_play_dealer_rule.1 [4] [10, 9] (by decide),
   C7_play_dealer_rule.2.1 [5] [7, 9] 4 (by decide),
   C7_play_dealer_rule.2.2.1 [4] [10, 9] (by decide),
   C7_play_dealer_rule.2.2.2.1 [] [11, 6] 4 (by decide) (by decide),
   C7_play_dealer_rule.2.2.2.2 false [5] [7, 9] [] [7, 9, 5] (by decide)⟩

/-- C3: when the player's initial two cards or the dealer's two cards form a
natural, `play_round` settles the single hand immediately: the action loop
never runs (the result is identical for every policy and every fuel bound,
and the log stays empty even with logging on), and the hand's result is
+1.5× the base bet for a player-only natural, −1× for a dealer-only natural,
and 0 when both hold naturals. -/
theorem C3_natural_immediate_settlement :
    ∀ (fuel : Nat) (rest : List Int) (p1 p2 d1 d2 : Int) (policy : PolicyFunc)
      (b : ℚ) (log : Bool),
      (is_blackjack [p1, p2] = true ∨ is_blackjack [d1, d2] = true) →
      play_round fuel (rest ++ [d2, d1, p2, p1]) policy b log =
        .ok ⟨rest,
             [⟨[p1, p2], b, false, false, is_blackjack [p1, p2], false,
               some (if is_blackjack [p1, p2] && !(is_blackjack [d1, d2])
                   then b * (3 / 2)
                 else if is_blackjack [d1, d2] && !(is_blackjack [p1, p2]) then -b
                 else 0), false⟩],
             [d1, d2], is_blackjack [p1, p2], []⟩ := by
  intro fuel rest p1 p2 d1 d2 policy b log hbj
  have hs : rest ++ [d2, d1, p2, p1] = (((rest ++ [d2]) ++ [d1]) ++ [p2]) ++ [p1] := by
    simp
  rw [hs]
  unfold play_round
  simp only [draw_card_concat]
  rcases hbj with h | h <;> simp [h, BLACKJACK_PAYOUT]

/-- Witness for C3 at a player natural `[11, 10]` against dealer `[9, 9]`. -/
theorem C3_natural_immediate_settlement_witness :
    play_round 0 ([] ++ [9, 9, 10, 11]) (fun _ _ _ => "H") 1 true =
      .ok ⟨[],
           [⟨[11, 10], 1, false, false, is_blackjack [11, 10], false,
             some (if is_blackjack [11, 10] && !(is_blackjack [9, 9])
                 then 1 * (3 / 2)
               else if is_blackjack [9, 9] && !(is_blackjack [11, 10]) then -1
               else 0), false⟩],
           [9, 9], is_blackjack [11, 10], []⟩ :=
  C3_natural_immediate_settlement 0 [] 11 10 9 9 (fun _ _ _ => "H") 1 true
    (Or.inl (by decide))

/-- C1: contrary to the claim (and to the source comment "after split, do
not auto-advance hand_index yet"), after a non-Ace split the inner-loop
`break` still falls through to the outer loop's `hand_index += 1`, so the
redealt acting hand is skipped: with shoe `[5, 9, 2, 3, 10, 7, 8, 8]`
(player dealt `[8, 8]`, dealer `[7, 10]`) and a split-else-stand policy, the
round ends with the hand at index 0 never acted on and still unfinished
(`is_finished = false`), violating "every HandState ... reaches the finished
terminal state". -/
theorem C1_split_skips_acting_hand :
    play_round 50 [5, 9, 2, 3, 10, 7, 8, 8] split_else_stand_policy 1 false =
      .ok ⟨[5, 9],
           [⟨[8, 3], 1, false, false, false, false, some (-1), true⟩,
            ⟨[8, 2], 1, true, false, false, false, some (-1), true⟩],
           [7, 10], false, []⟩ ∧
    ([⟨[8, 3], 1, false, false, false, false, some (-1), true⟩,
      ⟨[8, 2], 1, true, false, false, false, some (-1), true⟩] : List HandState).all
        (fun h => h.is_finished) = false := by
  decide

/-- C2: contrary to the claim, the split cap rejects the THIRD split, not
the fifth: both hands produced by a split carry the `from_split` marker, so
after two successful splits three hands carry it and
`existing_splits >= MAX_SPLITS (= 3)` already holds (never 4 hands, despite
the source comment "up to 4 hands total"); and a "P" on a pair at the cap
does not degrade to Hit — `apply_action_split` silently no-ops, the loop
`break`s and the hand is skipped with no card drawn.  Shoe
`[8, 5, 8, 5, 9, 10, 8, 8]`: player `[8, 8]`, dealer `[10, 9]`; the log
shows a third "P" on the pair `[8, 8]` at index 2, which keeps exactly its
2 cards, and the round ends with 3 hands. -/
theorem C2_split_cap_third_rejected_no_hit :
    play_round 50 [8, 5, 8, 5, 9, 10, 8, 8] split_else_stand_policy 1 true =
      .ok ⟨[],
           [⟨[8, 5], 1, false, false, false, false, some (-1), true⟩,
            ⟨[8, 5], 1, false, false, false, false, some (-1), true⟩,
            ⟨[8, 8], 1, false, false, false, false, some (-1), true⟩],
           [10, 9], false,
           [⟨0, [8, 8], 10, "P", ⟨16, false, true, true, 0, 1⟩⟩,
            ⟨1, [8, 8], 10, "P", ⟨16, false, true, true, 1, 2⟩⟩,
            ⟨2, [8, 8], 10, "P", ⟨16, false, true, true, 2, 3⟩⟩]⟩ ∧
    ([⟨[8, 5], 1, false, false, false, false, some (-1), true⟩,
      ⟨[8, 5], 1, false, false, false, false, some (-1), true⟩,
      ⟨[8, 8], 1, false, false, false, false, some (-1), true⟩] : List HandState).length = 3 ∧
    (⟨[8, 8], 1, false, false, false, false, some (-1), true⟩ : HandState).cards.length = 2 := by
  decide

/-- C10 counterexample: splitting `[10, 10]` from the shoe `[11, 11]` yields
two hands `[10, 11]` whose natural flag IS set by `apply_action_split`; such
a hand is not busted and the busted dealer `[10, 6, 10]` (total 26) does not
hold a two-card 21 — yet `settle_hand_vs_dealer` pays it `+1 × bet`, not
`+1.5 × bet`, because the dealer-bust branch is checked before the natural
branch. -/
theorem C10_counterexample_dealer_bust :
    apply_action_split [11, 11] [⟨[10, 10], 1, false, false, false, false, none, false⟩] 0 =
      .ok ([], [⟨[10, 11], 1, false, false, true, false, none, true⟩,
                ⟨[10, 11], 1, false, false, true, false, none, true⟩]) ∧
    (hand_value [10, 11]).1 = 21 ∧
    (hand_value [10, 6, 10]).1 = 26 ∧
    ¬(([10, 6, 10] : List Int).length = 2 ∧ (hand_value [10, 6, 10]).1 = 21) ∧
    (settle_hand_vs_dealer ⟨[10, 11], 1, false, false, true, false, none, true⟩
        [10, 6, 10]).2 = 1 ∧
    ((1 : ℚ) ≠ (3 / 2) * 1) := by
  refine ⟨by decide, by decide, by decide, by decide, by decide, by norm_num⟩

/-- Updating one list entry with a hand satisfying the bet invariant
preserves the invariant for the whole list. -/
theorem BetOk_set {b : ℚ} {hands : List HandState}
    (hinv : ∀ h ∈ hands, BetOk b h) {i : Nat} {x : HandState} (hx : BetOk b x) :
    ∀ h ∈ hands.set i x, BetOk b h :=
  fun h hm => (List.mem_or_eq_of_mem_set hm).elim (hinv h) (fun he => he ▸ hx)

/-- Settlement never changes a hand's bet. -/
theorem settle_preserves_bet (hand : HandState) (d : List Int) :
    (settle_hand_vs_dealer hand d).1.bet = hand.bet := by
  cases hr : hand.result with
  | some r => simp only [settle_hand_vs_dealer, hr]
  | none =>
    simp only [settle_hand_vs_dealer, hr]
    split_ifs <;> simp

/-- A hit never changes the bet and can only finish a hand. -/
theorem hit_preserves_BetOk {b : ℚ} {shoe : List Int} {hand : HandState}
    {s' : List Int} {h' : HandState}
    (h : apply_action_hit shoe hand = .ok (s', h')) (hb : BetOk b hand) :
    BetOk b h' := by
  unfold apply_action_hit at h
  cases hdc : draw_card shoe with
  | error e => rw [hdc] at h; simp at h
  | ok p =>
    obtain ⟨c, s2⟩ := p
    rw [hdc] at h
    simp only [] at h
    by_cases hv : (hand_value (hand.cards ++ [c])).1 > 21
    · simp only [if_pos hv, Except.ok.injEq, Prod.mk.injEq] at h
      rw [← h.2]
      rcases hb with h1 | ⟨h1, h2⟩
      · exact Or.inl h1
      · exact Or.inr ⟨h1, rfl⟩
    · simp only [if_neg hv, Except.ok.injEq, Prod.mk.injEq] at h
      rw [← h.2]
      rcases hb with h1 | ⟨h1, h2⟩
      · exact Or.inl h1
      · exact Or.inr ⟨h1, h2⟩

/-- A valid double (two cards held) doubles the bet and finishes the hand. -/
theorem double_two_cards {shoe : List Int} {hand : HandState}
    {s' : List Int} {h' : HandState}
    (hlen : hand.cards.length = 2)
    (h : apply_action_double shoe hand = .ok (s', h')) :
    h'.bet = hand.bet * 2 ∧ h'.is_finished = true := by
  unfold apply_action_double at h
  rw [if_neg (by omega)] at h
  cases hdc : draw_card shoe with
  | error e => rw [hdc] at h; simp at h
  | ok p =>
    obtain ⟨c, s2⟩ := p
    rw [hdc] at h
    simp only [Except.ok.injEq, Prod.mk.injEq] at h
    rw [← h.2]
    exact ⟨rfl, rfl⟩

/-- A split (attempt) on an unfinished hand preserves the bet invariant:
both resulting hands copy the acting hand's bet, which is the base bet. -/
theorem split_preserves_BetOk {b : ℚ} {shoe : List Int} {hands : List HandState}
    {i : Nat} {shoe' : List Int} {hands' : List HandState} {hand : HandState}
    (hget : hands.get? i = some hand)
    (hfin : hand.is_finished = false)
    (h : apply_action_split shoe hands i = .ok (shoe', hands'))
    (hinv : ∀ h ∈ hands, BetOk b h) :
    ∀ h ∈ hands', BetOk b h := by
  have hbet : hand.bet = b := by
    rcases hinv hand (List.get?_mem hget) with h1 | ⟨h1, h2⟩
    · exact h1
    · rw [hfin] at h2; exact absurd h2 (by simp)
  simp only [apply_action_split, hget] at h
  by_cases hcs : can_split hand.cards = true
  · simp only [hcs, Bool.not_true, Bool.false_eq_true, if_false] at h
    by_cases hcap : (hands.filter (fun h => h.from_split)).length ≥ MAX_SPLITS
    · rw [if_pos hcap] at h
      simp only [Except.ok.injEq, Prod.mk.injEq] at h
      rw [← h.2]
      exact hinv
    · rw [if_neg hcap] at h
      cases hd1 : draw_card shoe with
      | error e => rw [hd1] at h; simp at h
      | ok p1 =>
        obtain ⟨c1, s1⟩ := p1
        rw [hd1] at h
        simp only [] at h
        cases hd2 : draw_card s1 with
        | error e => rw [hd2] at h; simp at h
        | ok p2 =>
          obtain ⟨c2, s2⟩ := p2
          rw [hd2] at h
          simp only [Except.ok.injEq, Prod.mk.injEq] at h
          obtain ⟨hlt, -⟩ := List.get?_eq_some.mp hget
          rw [← h.2]
          intro x hx
          rcases (List.mem_insertIdx (by simp; omega)).mp hx with hx2 | hx2
          · by_cases hace : hand.cards.headI = 11 <;>
              simp only [hace, reduceIte] at hx2 <;>
              rw [hx2] <;> exact Or.inl hbet
          · rcases List.mem_or_eq_of_mem_set hx2 with hx3 | hx3
            · exact hinv x hx3
            · by_cases hace : hand.cards.headI = 11 <;>
                simp only [hace, reduceIte] at hx3 <;>
                rw [hx3] <;> exact Or.inl hbet
  · simp only [Bool.not_eq_true] at hcs
    simp only [hcs, Bool.not_false, if_true, Except.ok.injEq, Prod.mk.injEq] at h
    rw [← h.2]
    exact hinv

/-- Every run of the player action loop that completes preserves the bet
invariant of the hand list. -/
theorem action_loop_BetOk (policy : PolicyFunc) (up : Int) (log : Bool) (b : ℚ) :
    ∀ (fuel : Nat) (shoe : List Int) (hands : List HandState) (i : Nat)
      (logs : List LogStep) (shoe' : List Int) (hands' : List HandState)
      (logs' : List LogStep),
      action_loop policy up log fuel shoe hands i logs = .ok shoe' hands' logs' →
      (∀ h ∈ hands, BetOk b h) → ∀ h ∈ hands', BetOk b h := by
  intro fuel
  induction fuel with
  | zero =>
    intro shoe hands i logs s' hs' l' h hinv
    simp [action_loop] at h
  | succ n ih =>
    intro shoe hands i logs s' hs' l' h hinv
    simp only [action_loop] at h
    cases hget : hands.get? i with
    | none =>
      rw [hget] at h
      simp only [LoopResult.ok.injEq] at h
      rw [← h.2.1]
      exact hinv
    | some hand =>
      rw [hget] at h
      simp only [] at h
      by_cases hfin : hand.is_finished = true
      · simp only [hfin, if_true] at h
        exact ih _ _ _ _ _ _ _ h hinv
      · simp only [hfin, Bool.false_eq_true, if_false] at h
        replace hfin : hand.is_finished = false := by
          simpa using hfin
        have hBhand := hinv hand (List.get?_mem hget)
        have hbet : hand.bet = b := by
          rcases hBhand with h1 | ⟨h1, h2⟩
          · exact h1
          · rw [hfin] at h2; exact absurd h2 (by simp)
        by_cases hbust : (hand_value hand.cards).1 > 21
        · simp only [if_pos hbust] at h
          refine ih _ _ _ _ _ _ _ h (BetOk_set hinv ?_)
          exact Or.inl hbet
        · simp only [if_neg hbust] at h
          by_cases hH : py_upper (policy hand.cards up
              { player_total := (hand_value hand.cards).1,
                player_soft := (hand_value hand.cards).2,
                can_split := can_split hand.cards,
                can_double := decide (hand.cards.length = 2),
                hand_index := i, num_hands := hands.length }) = "H"
          · simp only [hH, reduceIte] at h
            by_cases hsa : hand.is_split_ace = true
            · simp only [hsa, if_true] at h
              refine ih _ _ _ _ _ _ _ h (BetOk_set hinv (Or.inl hbet))
            · simp only [hsa, Bool.false_eq_true, if_false] at h
              cases hhit : apply_action_hit shoe hand with
              | error e => rw [hhit] at h; simp at h
              | ok p =>
                obtain ⟨s2, h2⟩ := p
                rw [hhit] at h
                simp only [] at h
                refine ih _ _ _ _ _ _ _ h
                  (BetOk_set hinv (hit_preserves_BetOk hhit hBhand))
          · simp only [hH, reduceIte] at h
            by_cases hS : py_upper (policy hand.cards up
                { player_total := (hand_value hand.cards).1,
                  player_soft := (hand_value hand.cards).2,
                  can_split := can_split hand.cards,
                  can_double := decide (hand.cards.length = 2),
                  hand_index := i, num_hands := hands.length }) = "S"
            · simp only [hS, reduceIte] at h
              exact ih _ _ _ _ _ _ _ h (BetOk_set hinv (Or.inl hbet))
            · simp only [hS, reduceIte] at h
              by_cases hD : py_upper (policy hand.cards up
                  { player_total := (hand_value hand.cards).1,
                    player_soft := (hand_value hand.cards).2,
                    can_split := can_split hand.cards,
                    can_double := decide (hand.cards.length = 2),
                    hand_index := i, num_hands := hands.length }) = "D"
              · simp only [hD, reduceIte] at h
                by_cases hlen : hand.cards.length = 2
                · simp only [hlen, reduceIte] at h
                  cases hdd : apply_action_double shoe hand with
                  | error e => rw [hdd] at h; simp at h
                  | ok p =>
                    obtain ⟨s2, h2⟩ := p
                    rw [hdd] at h
                    simp only [] at h
                    have hd2 := double_two_cards hlen hdd
                    refine ih _ _ _ _ _ _ _ h (BetOk_set hinv (Or.inr ⟨?_, hd2.2⟩))
                    rw [hd2.1, hbet, mul_comm]
                · simp only [hlen, reduceIte] at h
                  cases hhit : apply_action_hit shoe hand with
                  | error e => rw [hhit] at h; simp at h
                  | ok p =>
                    obtain ⟨s2, h2⟩ := p
                    rw [hhit] at h
                    simp only [] at h
                    exact ih _ _ _ _ _ _ _ h
                      (BetOk_set hinv (hit_preserves_BetOk hhit hBhand))
              · simp only [hD, reduceIte] at h
                by_cases hP : py_upper (policy hand.cards up
                    { player_total := (hand_value hand.cards).1,
                      player_soft := (hand_value hand.cards).2,
                      can_split := can_split hand.cards,
                      can_double := decide (hand.cards.length = 2),
                      hand_index := i, num_hands := hands.length }) = "P"
                · simp only [hP, reduceIte] at h
                  by_cases hcs : can_split hand.cards = true
                  · simp only [hcs, reduceIte] at h
                    cases hsp : apply_action_split shoe hands i with
                    | error e => rw [hsp] at h; simp at h
                    | ok p =>
                      obtain ⟨s2, hh2⟩ := p
                      rw [hsp] at h
                      simp only [] at h
                      exact ih _ _ _ _ _ _ _ h
                        (split_preserves_BetOk hget hfin hsp hinv)
                  · simp only [hcs, Bool.false_eq_true, reduceIte] at h
                    cases hhit : apply_action_hit shoe hand with
                    | error e => rw [hhit] at h; simp at h
                    | ok p =>
                      obtain ⟨s2, h2⟩ := p
                      rw [hhit] at h
                      simp only [] at h
                      exact ih _ _ _ _ _ _ _ h
                        (BetOk_set hinv (hit_preserves_BetOk hhit hBhand))
                · simp only [hP, reduceIte] at h
                  by_cases hR : py_upper (policy hand.cards up
                      { player_total := (hand_value hand.cards).1,
                        player_soft := (hand_value hand.cards).2,
                        can_split := can_split hand.cards,
                        can_double := decide (hand.cards.length = 2),
                        hand_index := i, num_hands := hands.length }) = "R"
                  · simp only [hR, reduceIte] at h
                    exact ih _ _ _ _ _ _ _ h (BetOk_set hinv (Or.inl hbet))
                  · simp only [hR, reduceIte] at h
                    exact ih _ _ _ _ _ _ _ h (BetOk_set hinv (Or.inl hbet))

/-- A hit never changes the bet. -/
theorem hit_bet {shoe : List Int} {hand : HandState} {s' : List Int} {h' : HandState}
    (h : apply_action_hit shoe hand = .ok (s', h')) : h'.bet = hand.bet := by
  unfold apply_action_hit at h
  cases hdc : draw_card shoe with
  | error e => rw [hdc] at h; simp at h
  | ok p =>
    obtain ⟨c, s2⟩ := p
    rw [hdc] at h
    simp only [] at h
    by_cases hv : (hand_value (hand.cards ++ [c])).1 > 21
    · simp only [if_pos hv, Except.ok.injEq, Prod.mk.injEq] at h
      rw [← h.2]
    · simp only [if_neg hv, Except.ok.injEq, Prod.mk.injEq] at h
      rw [← h.2]

/-- C9: in every completed round, every hand's bet is the base bet or
exactly its double (the initial hand starts at 1× the base bet and a single
double is the only escalation); and a Double requested on a hand not holding
exactly 2 cards degrades to a Hit, which leaves the bet unchanged. -/
theorem C9_bet_one_or_double :
    (∀ (fuel : Nat) (shoe : List Int) (policy : PolicyFunc) (b : ℚ) (log : Bool)
       (st : RoundState),
      play_round fuel shoe policy b log = .ok st →
      ∀ h ∈ st.player_hands, h.bet = b ∨ h.bet = 2 * b) ∧
    (∀ (shoe : List Int) (hand : HandState), hand.cards.length ≠ 2 →
      apply_action_double shoe hand = apply_action_hit shoe hand) ∧
    (∀ (shoe : List Int) (hand : HandState) (s' : List Int) (h' : HandState),
      apply_action_hit shoe hand = .ok (s', h') → h'.bet = hand.bet) := by
  refine ⟨?_, ?_, ?_⟩
  · intro fuel shoe policy b log st h
    unfold play_round at h
    cases hd1 : draw_card shoe with
    | error e => rw [hd1] at h; simp at h
    | ok p1 =>
    obtain ⟨p1c, s1⟩ := p1
    rw [hd1] at h
    simp only [] at h
    cases hd2 : draw_card s1 with
    | error e => rw [hd2] at h; simp at h
    | ok p2 =>
    obtain ⟨p2c, s2⟩ := p2
    rw [hd2] at h
    simp only [] at h
    cases hd3 : draw_card s2 with
    | error e => rw [hd3] at h; simp at h
    | ok p3 =>
    obtain ⟨d1c, s3⟩ := p3
    rw [hd3] at h
    simp only [] at h
    cases hd4 : draw_card s3 with
    | error e => rw [hd4] at h; simp at h
    | ok p4 =>
    obtain ⟨d2c, s4⟩ := p4
    rw [hd4] at h
    simp only [] at h
    by_cases hnat : (is_blackjack [p1c, p2c] || is_blackjack [d1c, d2c]) = true
    · simp only [hnat, if_true, RoundResult.ok.injEq] at h
      rw [← h]
      intro x hx
      simp only [RoundState.mk.injEq, List.mem_singleton] at hx
      rw [hx]
      exact Or.inl rfl
    · simp only [hnat, Bool.false_eq_true, if_false] at h
      cases hal : action_loop policy d1c log fuel s4
          [{ cards := [p1c, p2c], bet := b, is_blackjack := is_blackjack [p1c, p2c] }] 0 [] with
      | outOfFuel => rw [hal] at h; simp at h
      | shoeEmpty e => rw [hal] at h; simp at h
      | ok s5 hands logs =>
        rw [hal] at h
        simp only [] at h
        have hinv : ∀ x ∈ hands, BetOk b x := by
          refine action_loop_BetOk policy d1c log b fuel s4 _ 0 [] s5 hands logs hal ?_
          intro x hx
          simp only [List.mem_singleton] at hx
          rw [hx]
          exact Or.inl rfl
        cases hdl : (if hands.any (fun h => !h.is_busted) then
            play_dealer DEALER_HITS_SOFT_17 s5 [d1c, d2c] else .ok (s5, [d1c, d2c])) with
        | error e => rw [hdl] at h; simp at h
        | ok p =>
          obtain ⟨s6, d6⟩ := p
          rw [hdl] at h
          simp only [RoundResult.ok.injEq] at h
          rw [← h]
          intro x hx
          simp only [List.mem_map] at hx
          obtain ⟨x0, hx0, rfl⟩ := hx
          rw [settle_preserves_bet]
          rcases hinv x0 hx0 with h1 | ⟨h1, -⟩
          · exact Or.inl h1
          · exact Or.inr h1
  · intro shoe hand hlen
    unfold apply_action_double
    rw [if_pos hlen]
  · intro shoe hand s' h' h
    exact hit_bet h

/-- Witness for C9: a stand-only round, plus a double on a 3-card hand. -/
theorem C9_bet_one_or_double_witness :
    ((⟨[10, 10], 1, true, false, false, false, some (-1), false⟩ : HandState).bet = 1 ∨
      (⟨[10, 10], 1, true, false, false, false, some (-1), false⟩ : HandState).bet = 2 * 1) ∧
    apply_action_double [4] ⟨[2, 3, 4], 1, false, false, false, false, none, false⟩ =
      apply_action_hit [4] ⟨[2, 3, 4], 1, false, false, false, false, none, false⟩ ∧
    (⟨[2, 3, 4, 4], 1, false, false, false, false, none, false⟩ : HandState).bet =
      (⟨[2, 3, 4], 1, false, false, false, false, none, false⟩ : HandState).bet :=
  ⟨C9_bet_one_or_double.1 50 [5, 9, 7, 10, 10] (fun _ _ _ => "S") 1 false
      ⟨[], [⟨[10, 10], 1, true, false, false, false, some (-1), false⟩], [7, 9, 5], false, []⟩
      (by decide) ⟨[10, 10], 1, true, false, false, false, some (-1), false⟩ (by decide),
   C9_bet_one_or_double.2.1 [4] ⟨[2, 3, 4], 1, false, false, false, false, none, false⟩
      (by decide),
   C9_bet_one_or_double.2.2 [4] ⟨[2, 3, 4], 1, false, false, false, false, none, false⟩
      [] ⟨[2, 3, 4, 4], 1, false, false, false, false, none, false⟩ (by decide)⟩

/-- C10 (amended): a hand created by a split whose two cards total 21 has
its natural flag set by `apply_action_split`, and if such a hand is
unsettled (result not yet set) and not busted, the dealer's total is at most
21, and the dealer does not hold a two-card 21, `settle_hand_vs_dealer` pays
it +1.5× its bet; when the dealer has busted (total above 21) the hand is
instead paid +1× its bet like any other non-busted hand. -/
theorem C10_amended_split_natural_payout :
    (∀ (rest : List Int) (c1 c2 : Int) (hands : List HandState) (i : Nat) (hand : HandState),
      hands.get? i = some hand →
      can_split hand.cards = true →
      (hands.filter (fun h => h.from_split)).length < MAX_SPLITS →
      ∃ h1 h2,
        apply_action_split (rest ++ [c2, c1]) hands i =
          .ok (rest, (hands.set i h1).insertIdx (i + 1) h2) ∧
        h1.cards = [hand.cards.headI, c1] ∧ h2.cards = [hand.cards.headI, c2] ∧
        ((hand_value h1.cards).1 = 21 → h1.is_blackjack = true) ∧
        ((hand_value h2.cards).1 = 21 → h2.is_blackjack = true) ∧
        h1.bet = hand.bet ∧ h2.bet = hand.bet ∧
        h2.is_busted = false ∧ h2.result = none) ∧
    (∀ (hand : HandState) (dealer : List Int),
      hand.is_blackjack = true → hand.is_busted = false → hand.result = none →
      (hand_value dealer).1 ≤ 21 →
      ¬(dealer.length = 2 ∧ (hand_value dealer).1 = 21) →
      (settle_hand_vs_dealer hand dealer).2 = hand.bet * (3 / 2)) ∧
    (∀ (hand : HandState) (dealer : List Int),
      hand.is_busted = false → hand.result = none →
      (hand_value dealer).1 > 21 →
      (settle_hand_vs_dealer hand dealer).2 = hand.bet) := by
  refine ⟨?_, ?_, ?_⟩
  · intro rest c1 c2 hands i hand hget hpair hcap
    refine ⟨split_hand1 hand c1, split_hand2 hand c2,
      apply_action_split_ok rest c1 c2 hands i hand hget hpair hcap,
      ?_, ?_, ?_, ?_, ?_, ?_, ?_, ?_⟩
    · by_cases hace : hand.cards.headI = 11 <;> simp [split_hand1, hace]
    · by_cases hace : hand.cards.headI = 11 <;> simp [split_hand2, hace]
    · by_cases hace : hand.cards.headI = 11 <;>
        simp only [split_hand1, hace, reduceIte] <;> intro hv <;> simp [is_blackjack, hv]
    · by_cases hace : hand.cards.headI = 11 <;>
        simp only [split_hand2, hace, reduceIte] <;> intro hv <;> simp [is_blackjack, hv]
    · by_cases hace : hand.cards.headI = 11 <;> simp [split_hand1, hace]
    · by_cases hace : hand.cards.headI = 11 <;> simp [split_hand2, hace]
    · by_cases hace : hand.cards.headI = 11 <;> simp [split_hand2, hace]
    · by_cases hace : hand.cards.headI = 11 <;> simp [split_hand2, hace]
  · intro hand dealer hbj hbust hres h21 hn2
    simp only [settle_hand_vs_dealer, hres, hbust, Bool.false_eq_true, if_false]
    rw [if_neg (by omega), if_pos (by exact ⟨hbj, hn2⟩), BLACKJACK_PAYOUT]
  · intro hand dealer hbust hres h21
    simp only [settle_hand_vs_dealer, hres, hbust, Bool.false_eq_true, if_false]
    rw [if_pos h21]

/-- Witness for C10 (amended): split `[10, 10]` drawing two Aces, pay the
resulting natural 1.5× against dealer 19, and 1× against a busted dealer. -/
theorem C10_amended_split_natural_payout_witness :
    (∃ h1 h2,
      apply_action_split ([] ++ [11, 11]) [⟨[10, 10], 1, false, false, false, false, none, false⟩] 0 =
        .ok ([], (([⟨[10, 10], 1, false, false, false, false, none, false⟩] : List HandState).set 0 h1).insertIdx 1 h2) ∧
      h1.cards = [(⟨[10, 10], 1, false, false, false, false, none, false⟩ : HandState).cards.headI, 11] ∧
      h2.cards = [(⟨[10, 10], 1, false, false, false, false, none, false⟩ : HandState).cards.headI, 11] ∧
      ((hand_value h1.cards).1 = 21 → h1.is_blackjack = true) ∧
      ((hand_value h2.cards).1 = 21 → h2.is_blackjack = true) ∧
      h1.bet = (⟨[10, 10], 1, false, false, false, false, none, false⟩ : HandState).bet ∧
      h2.bet = (⟨[10, 10], 1, false, false, false, false, none, false⟩ : HandState).bet ∧
      h2.is_busted = false ∧ h2.result = none) ∧
    (settle_hand_vs_dealer ⟨[10, 11], 1, false, false, true, false, none, true⟩ [10, 9]).2 =
      (⟨[10, 11], 1, false, false, true, false, none, true⟩ : HandState).bet * (3 / 2) ∧
    (settle_hand_vs_dealer ⟨[10, 11], 1, false, false, true, false, none, true⟩ [10, 6, 10]).2 =
      (⟨[10, 11], 1, false, false, true, false, none, true⟩ : HandState).bet :=
  ⟨C10_amended_split_natural_payout.1 [] 11 11
      [⟨[10, 10], 1, false, false, false, false, none, false⟩] 0
      ⟨[10, 10], 1, false, false, false, false, none, false⟩ (by decide) (by decide) (by decide),
   C10_amended_split_natural_payout.2.1 ⟨[10, 11], 1, false, false, true, false, none, true⟩
      [10, 9] rfl rfl rfl (by decide) (by decide),
   C10_amended_split_natural_payout.2.2 ⟨[10, 11], 1, false, false, true, false, none, true⟩
      [10, 6, 10] rfl rfl (by decide)⟩

end BlackjackEngine
